import Mathlib

/-!
Shallow embedding of the xml-conformance-rs harness (src/main.rs).

Paths are modelled as lists of components; `Path::join` with a relative
component appends it.  The external XML event reader is modelled by the
terminal outcome it produces for a document (reaching end-of-file or
failing with an error), justified separately by the event-loop model
`readLoopFrom`.  File I/O is modelled by a `World` mapping paths to
contents, with `none` meaning the file cannot be opened.
-/

abbrev FsPath := List String

/-- Models Rust `Path::join` with a relative component. -/
def pathJoin (p : FsPath) (s : String) : FsPath := p ++ [s]

def pathToString (p : FsPath) : String := String.intercalate ("/") p

/-- Mirrors enum `TestCaseType` (attribute `@TYPE`, kebab-case). -/
inductive TestCaseType where
  | Valid
  | Invalid
  | NotWf
  | Error
deriving DecidableEq

/-- Mirrors struct `TestCase` (element `TEST`). -/
structure TestCase where
  uri : String
  id : String
  entities : Option String
  sections : String
  expected_outcome : TestCaseType
  output : Option String
  test_comment : String
deriving DecidableEq

/-- Mirrors struct `TestCasesTier2` (nested `TESTCASES` element). -/
structure TestCasesTier2 where
  profile : String
  base : Option String
  tests : List TestCase
deriving DecidableEq

/-- Mirrors struct `TestCasesTier1` (root `TESTCASES` element). -/
structure TestCasesTier1 where
  profile : String
  base : Option String
  tests : Option (List TestCase)
  tier_2 : List TestCasesTier2
deriving DecidableEq

/-- Abstract syntax of a manifest `TESTCASES` element as found in the XML
file: an optional `PROFILE` attribute (optional here so that a missing
required attribute can be represented), an optional `xml:base` attribute,
the `TEST` children (already in structured form) and the nested
`TESTCASES` children, to arbitrary depth. -/
inductive ManifestXml where
  | node (profile : Option String) (base : Option String)
      (tests : List TestCase) (children : List ManifestXml)

def xmlTests : ManifestXml → List TestCase
  | .node _ _ ts _ => ts

def xmlChildren : ManifestXml → List ManifestXml
  | .node _ _ _ cs => cs

mutual
/-- All `TEST` leaves of a manifest element, at any depth, in document
order (direct tests first, then each nested node in order). -/
def allCasesXml : ManifestXml → List TestCase
  | .node _ _ ts cs => ts ++ allCasesXmlList cs
def allCasesXmlList : List ManifestXml → List TestCase
  | [] => []
  | c :: cs => allCasesXml c ++ allCasesXmlList cs
end

/-- Models `quick_xml::de::from_reader::<TestCasesTier2>` applied to one
nested `TESTCASES` element, per the derived `Deserialize` impl: a missing
`@PROFILE` attribute is a missing-field error; `tests : Vec<TestCase>`
has no `serde(default)`, so zero `TEST` children is a missing-field
error; unknown child elements (deeper `TESTCASES` nesting) are ignored,
as serde does by default. -/
def deserTier2 : ManifestXml → Except String TestCasesTier2
  | .node profile base tests _ =>
    match profile with
    | none => .error ("missing field @PROFILE")
    | some p =>
      match tests with
      | [] => .error ("missing field TEST")
      | t :: ts => .ok ⟨p, base, t :: ts⟩

/-- Deserialization of the nested `TESTCASES` children in document
order; the first failing child aborts with its error. -/
def deserTier2List : List ManifestXml → Except String (List TestCasesTier2)
  | [] => .ok []
  | c :: cs =>
    match deserTier2 c with
    | .error e => .error e
    | .ok n =>
      match deserTier2List cs with
      | .error e => .error e
      | .ok ns => .ok (n :: ns)

/-- Models `quick_xml::de::from_reader::<TestCasesTier1>` on the root
`TESTCASES` element: `tests : Option<Vec<TestCase>>` becomes `none` when
there is no `TEST` child, but `tier_2 : Vec<TestCasesTier2>` is a
required field, so zero nested `TESTCASES` children is a missing-field
error. -/
def deserTier1 : ManifestXml → Except String TestCasesTier1
  | .node profile base tests children =>
    match profile with
    | none => .error ("missing field @PROFILE")
    | some p =>
      match deserTier2List children with
      | .error e => .error e
      | .ok tier2s =>
        match tier2s with
        | [] => .error ("missing field TESTCASES")
        | n :: ns =>
          .ok ⟨p, base,
               (match tests with | [] => none | t :: ts => some (t :: ts)),
               n :: ns⟩

/-- Result of driving the reader over one document: either the loop saw
`Event::Eof`, or `read_resolved_event_into` returned an error. -/
inductive ObservedResult where
  | reachedEnd
  | failedWithError (diag : String)
deriving DecidableEq

/-- Contents of a file on disk, as the harness interprets it: a manifest
in the sun shape (a top-level sequence of `TEST` elements, the shape
`from_reader::<Vec<TestCase>>` accepts), a manifest in the ibm shape (a
root `TESTCASES` element), or malformed XML (which fails under either
deserializer).  Test documents are kept in a separate map. -/
inductive FileContent where
  | sunManifest (tests : List TestCase)
  | ibmManifest (x : ManifestXml)
  | malformedXml

/-- The file system visible to the harness: manifest files and test
documents.  `none` means opening the file fails.  A test document is
abstracted by the terminal outcome the external reader produces on it
(see `readLoopFrom` for the event-loop model justifying this). -/
structure World where
  files : FsPath → Option FileContent
  docs : FsPath → Option ObservedResult

/-- Models `from_reader::<Vec<TestCase>>` as used by `run_sun_tests_for`:
succeeds exactly on sun-shaped content. -/
def sun_from_reader : FileContent → Except String (List TestCase)
  | .sunManifest ts => .ok ts
  | _ => .error ("deserialization error")

/-- Models `from_reader::<TestCasesTier1>` as used by `run_ibm_tests_for`. -/
def ibm_from_reader : FileContent → Except String TestCasesTier1
  | .ibmManifest x => deserTier1 x
  | _ => .error ("deserialization error")

/-- What one call of a runner function produced: the sequence of document
paths it attempted to open (`NsReader::from_file` calls), the mismatch
lines it printed, and the error it returned, `none` for `Ok(())`. -/
structure RunResult where
  opened : List FsPath
  printed : List String
  error : Option String
deriving DecidableEq

/-- The two `println!` sites inside the event loop of
`run_test_case_node`: on a reader error, a mismatch line is printed
exactly when the expected outcome is `Valid` or `Invalid`; on `Event::Eof`,
exactly when it is `NotWf` or `Error`. -/
def mismatchFor (tc : TestCase) (obs : ObservedResult) : Option String :=
  match obs with
  | .failedWithError err =>
    if tc.expected_outcome = TestCaseType.Valid ∨ tc.expected_outcome = TestCaseType.Invalid then
      some ("------------------\nMISMATCHED OUTCOME\nGot error: " ++ err
            ++ "\nIn well formed test: " ++ tc.id)
    else none
  | .reachedEnd =>
    if tc.expected_outcome = TestCaseType.NotWf ∨ tc.expected_outcome = TestCaseType.Error then
      some ("------------------\nMISMATCHED OUTCOME\nParsed non-well formed document\nFor test: " ++ tc.id)
    else none

/-- Mirrors `run_test_case_node`: for each test case in order, join the
manifest directory with the case's URI, open the document
(`NsReader::from_file(...)?` — a failed open returns the error at once,
dropping the remaining cases), drive the reader and print the mismatch
line if any. -/
def run_test_case_node (world : World) : List TestCase → FsPath → RunResult
  | [], _ => ⟨[], [], none⟩
  | tc :: rest, conf_file_parent_dir =>
    let file_to_read_path := pathJoin conf_file_parent_dir tc.uri
    match world.docs file_to_read_path with
    | none => ⟨[file_to_read_path], [], some ("io error: " ++ pathToString file_to_read_path)⟩
    | some obs =>
      let r := run_test_case_node world rest conf_file_parent_dir
      ⟨file_to_read_path :: r.opened, (mismatchFor tc obs).toList ++ r.printed, r.error⟩

/-- Mirrors `setup_config_file_buf_reader`: join the release root with the
manifest sub-path, open the file (`File::open(&conf_path)?`), then take the
path's parent directory. -/
def setup_config_file_buf_reader (world : World) (release_root_path : FsPath)
    (conf_sub_path : FsPath) : Except String (FsPath × FileContent) :=
  let conf_path := release_root_path ++ conf_sub_path
  match world.files conf_path with
  | none => .error ("io error: " ++ pathToString conf_path)
  | some content =>
    match conf_path with
    | [] => .error ("no parent for " ++ pathToString conf_path)
    | _ :: _ => .ok (conf_path.dropLast, content)

/-- Sequencing of two runner steps under `?` propagation: if the first
step returned an error the second never runs and contributes nothing. -/
def rrSeq (a b : RunResult) : RunResult :=
  match a.error with
  | some _ => a
  | none => ⟨a.opened ++ b.opened, a.printed ++ b.printed, b.error⟩

/-- The loop body of `run_ibm_tests_for`: `run_test_case_node(...)?` for
each tier-2 node in order, all against the same manifest directory. -/
def runTier2List (world : World) : List TestCasesTier2 → FsPath → RunResult
  | [], _ => ⟨[], [], none⟩
  | n :: ns, conf_file_parent_dir =>
    rrSeq (run_test_case_node world n.tests conf_file_parent_dir)
      (runTier2List world ns conf_file_parent_dir)

/-- Mirrors `run_ibm_tests_for`: open and deserialize the manifest as
`TestCasesTier1`, then run each tier-2 node's direct tests.  Note the
tier-1 node's own `tests` field is never used. -/
def run_ibm_tests_for (world : World) (conf_sub_path : FsPath)
    (release_root_path : FsPath) : RunResult :=
  match setup_config_file_buf_reader world release_root_path conf_sub_path with
  | .error e => ⟨[], [], some e⟩
  | .ok (conf_file_parent_dir, content) =>
    match ibm_from_reader content with
    | .error e => ⟨[], [], some e⟩
    | .ok tier_1 => runTier2List world tier_1.tier_2 conf_file_parent_dir

/-- Mirrors `run_sun_tests_for`: open and deserialize the manifest as
`Vec<TestCase>` and run the cases against the manifest's directory. -/
def run_sun_tests_for (world : World) (conf_sub_path : FsPath)
    (release_root_path : FsPath) : RunResult :=
  match setup_config_file_buf_reader world release_root_path conf_sub_path with
  | .error e => ⟨[], [], some e⟩
  | .ok (conf_file_parent_dir, content) =>
    match sun_from_reader content with
    | .error e => ⟨[], [], some e⟩
    | .ok test_cases => run_test_case_node world test_cases conf_file_parent_dir

/-- Mirrors struct `ConformanceTestRelease`.  Manifest sub-paths are kept
as component lists. -/
structure ConformanceTestRelease where
  release_date : String
  download_zip_url : String
  filename : String
  sun_valid_tests_conf : Option FsPath
  sun_invalid_tests_conf : Option FsPath
  sun_non_wf_tests_conf : Option FsPath
  sun_error_tests_conf : Option FsPath
  ibm_valid_tests_conf : Option FsPath
deriving DecidableEq

/-- Mirrors the constant `RELEASES`. -/
def RELEASES : List ConformanceTestRelease := [
  { release_date := "2003-12-10",
    download_zip_url := "https://www.w3.org/XML/Test/xmlts20031210.zip",
    filename := "xmlts20031210.zip",
    sun_valid_tests_conf := some (["sun", "sun-valid.xml"]),
    sun_invalid_tests_conf := some (["sun", "sun-invalid.xml"]),
    sun_non_wf_tests_conf := some (["sun", "sun-not-wf.xml"]),
    sun_error_tests_conf := some (["sun", "sun-error.xml"]),
    ibm_valid_tests_conf := some (["ibm", "ibm_oasis_valid.xml"]) },
  { release_date := "2008-02-05",
    download_zip_url := "https://www.w3.org/XML/Test/xmlts20080205.zip",
    filename := "xmlts20080205.zip",
    sun_valid_tests_conf := none,
    sun_invalid_tests_conf := none,
    sun_non_wf_tests_conf := none,
    sun_error_tests_conf := none,
    ibm_valid_tests_conf := none },
  { release_date := "2008-08-27",
    download_zip_url := "https://www.w3.org/XML/Test/xmlts20080827.zip",
    filename := "xmlts20080827.zip",
    sun_valid_tests_conf := none,
    sun_invalid_tests_conf := none,
    sun_non_wf_tests_conf := none,
    sun_error_tests_conf := none,
    ibm_valid_tests_conf := none },
  { release_date := "2013-09-23",
    download_zip_url := "https://www.w3.org/XML/Test/xmlts20130923.zip",
    filename := "xmlts20130923.zip",
    sun_valid_tests_conf := none,
    sun_invalid_tests_conf := none,
    sun_non_wf_tests_conf := none,
    sun_error_tests_conf := none,
    ibm_valid_tests_conf := none }]

def runOptSun (world : World) (release_root_path : FsPath) : Option FsPath → RunResult
  | none => ⟨[], [], none⟩
  | some sub => run_sun_tests_for world sub release_root_path

def runOptIbm (world : World) (release_root_path : FsPath) : Option FsPath → RunResult
  | none => ⟨[], [], none⟩
  | some sub => run_ibm_tests_for world sub release_root_path

/-- The per-release body of `main` after fetch and extraction: the five
`if let Some(conf_sub_path) = ...` blocks in source order, each calling
its runner with `?` propagation. -/
def processRelease (world : World) (release_root_path : FsPath)
    (r : ConformanceTestRelease) : RunResult :=
  rrSeq (runOptSun world release_root_path r.sun_valid_tests_conf)
    (rrSeq (runOptSun world release_root_path r.sun_invalid_tests_conf)
      (rrSeq (runOptSun world release_root_path r.sun_non_wf_tests_conf)
        (rrSeq (runOptSun world release_root_path r.sun_error_tests_conf)
          (runOptIbm world release_root_path r.ibm_valid_tests_conf))))

/-- The `for release in selected_releases` loop of `main`, with `?`
propagation across releases.  `rootOf` stands for the externally computed
extraction directory joined with "xmlconf" for each release; download and
extraction themselves are external collaborators. -/
def mainRun (world : World) (rootOf : ConformanceTestRelease → FsPath) :
    List ConformanceTestRelease → RunResult
  | [] => ⟨[], [], none⟩
  | r :: rest => rrSeq (processRelease world (rootOf r) r) (mainRun world rootOf rest)

def hasAnyEntryPoint (r : ConformanceTestRelease) : Bool :=
  r.sun_valid_tests_conf.isSome || r.sun_invalid_tests_conf.isSome ||
  r.sun_non_wf_tests_conf.isSome || r.sun_error_tests_conf.isSome ||
  r.ibm_valid_tests_conf.isSome

/-- A world with no files at all. -/
def trivialWorld : World := ⟨fun _ => none, fun _ => none⟩

/-- The reader events the runner's loop distinguishes: `Event::Eof`
versus every other event kind (collapsed into one constructor, since the
loop's catch-all arm discards them). -/
inductive ReaderEvent where
  | eof
  | other
deriving DecidableEq

/-- One result of pulling `read_resolved_event_into`. -/
inductive ReadResult where
  | err (diag : String)
  | ok (e : ReaderEvent)
deriving DecidableEq

/-- A pull result that makes the loop `break`. -/
def isTerminal : ReadResult → Bool
  | .err _ => true
  | .ok .eof => true
  | .ok .other => false

/-- The observed outcome a terminal pull result yields. -/
def observeTerminal : ReadResult → Option ObservedResult
  | .err d => some (.failedWithError d)
  | .ok .eof => some .reachedEnd
  | .ok .other => none

/-- The event loop of `run_test_case_node` (lines 210 through 227),
modelled over an arbitrary pull stream `r` with explicit fuel: pull the
event at the current index; an error or `Event::Eof` breaks the loop with
the observed outcome, anything else is discarded and the loop continues.
`none` means the fuel ran out before a terminal pull. -/
def readLoopFrom (r : Nat → ReadResult) : Nat → Nat → Option ObservedResult
  | 0, _ => none
  | fuel + 1, i =>
    match r i with
    | .err d => some (.failedWithError d)
    | .ok .eof => some .reachedEnd
    | .ok .other => readLoopFrom r fuel (i + 1)

/-- Modelled from the spec: the four-by-two MATCH/MISMATCH decision table
of section 4.4 — `Valid` and `Invalid` match exactly when the reader
reached end-of-document, `NotWellFormed` and `Error` match exactly when
it errored. -/
def expectedMatches : TestCaseType → ObservedResult → Bool
  | .Valid, .reachedEnd => true
  | .Valid, .failedWithError _ => false
  | .Invalid, .reachedEnd => true
  | .Invalid, .failedWithError _ => false
  | .NotWf, .reachedEnd => false
  | .NotWf, .failedWithError _ => true
  | .Error, .reachedEnd => false
  | .Error, .failedWithError _ => true

/-- Modelled from the spec: a node's effective base is its own base-path
override when present (resolved against the parent's effective base),
otherwise its parent's effective base. -/
def specEffectiveBase (parentBase : FsPath) : Option String → FsPath
  | some b => parentBase ++ [b]
  | none => parentBase

/-- Modelled from the spec: the resolved document path of every leaf test
case of a deserialized two-tier manifest, using hierarchical effective
bases, with the manifest file's containing directory as the root's parent
base — root direct cases first, then each tier-2 node's cases in order. -/
def specResolvedPaths (manifestDir : FsPath) (t : TestCasesTier1) : List FsPath :=
  let rootBase := specEffectiveBase manifestDir t.base
  ((t.tests.getD []).map (fun tc => pathJoin rootBase tc.uri)) ++
  t.tier_2.flatMap (fun n =>
    n.tests.map (fun tc => pathJoin (specEffectiveBase rootBase n.base) tc.uri))

/-- All leaf test cases of a deserialized two-tier manifest: the root
node's direct cases, then each tier-2 node's cases, in document order. -/
def allCasesTier1 (t : TestCasesTier1) : List TestCase :=
  t.tests.getD [] ++ t.tier_2.flatMap (fun n => n.tests)

/-- A test case with the given relative URI and expected outcome, the
remaining informational fields fixed. -/
def sampleCase (u : String) (ty : TestCaseType) : TestCase :=
  ⟨u, "id-" ++ u, none, "2.1", ty, none, "comment"⟩

/-- A world holding a single openable test document. -/
def oneDocWorld (p : FsPath) (obs : ObservedResult) : World :=
  ⟨fun _ => none, fun q => if q = p then some obs else none⟩

/-- Fixture for the base-override question: a root node without override
whose single nested node carries the override "sub". -/
def xBaseOverride : ManifestXml :=
  .node (some "P1") none []
    [.node (some "P2") (some "sub") [sampleCase "doc.xml" .Valid] []]

/-- The value `xBaseOverride` deserializes to. -/
def tBaseOverride : TestCasesTier1 :=
  ⟨"P1", none, none, [⟨"P2", some "sub", [sampleCase "doc.xml" .Valid]⟩]⟩

/-- World for the base-override fixture: the manifest sits at
root/ibm/conf.xml and the document at root/ibm/doc.xml (where the code
looks), while a hierarchical reading would look in root/ibm/sub/. -/
def worldBaseOverride : World :=
  ⟨fun p => if p = ["root", "ibm", "conf.xml"] then some (.ibmManifest xBaseOverride) else none,
   fun p => if p = ["root", "ibm", "doc.xml"] then some ObservedResult.reachedEnd else none⟩

/-- Fixture for the skipped-root-cases question: the root node carries a
direct test case "a.xml" (which would mismatch if run, being expected
not-well-formed while its reader reaches the end) next to one nested node
with the case "b.xml". -/
def xRootDirect : ManifestXml :=
  .node (some "P1") none [sampleCase "a.xml" .NotWf]
    [.node (some "P2") none [sampleCase "b.xml" .Valid] []]

def worldRootDirect : World :=
  ⟨fun p => if p = ["root", "ibm", "conf.xml"] then some (.ibmManifest xRootDirect) else none,
   fun p => if p = ["root", "ibm", "a.xml"] ∨ p = ["root", "ibm", "b.xml"]
            then some ObservedResult.reachedEnd else none⟩

/-- The value `xRootDirect` deserializes to. -/
def tRootDirect : TestCasesTier1 :=
  ⟨"P1", none, some [sampleCase "a.xml" .NotWf],
   [⟨"P2", none, [sampleCase "b.xml" .Valid]⟩]⟩

/-- Fixture for the nesting-depth question: three levels, with a test
case at depth two ("c2.xml") and another at depth three ("c3.xml"). -/
def xDepthThree : ManifestXml :=
  .node (some "L1") none []
    [.node (some "L2") none [sampleCase "c2.xml" .Valid]
      [.node (some "L3") none [sampleCase "c3.xml" .NotWf] []]]

def worldDepthThree : World :=
  ⟨fun p => if p = ["root", "ibm", "conf.xml"] then some (.ibmManifest xDepthThree) else none,
   fun p => if p = ["root", "ibm", "c2.xml"] ∨ p = ["root", "ibm", "c3.xml"]
            then some ObservedResult.reachedEnd else none⟩

/-- Fixture releases for the propagation question: release "A" has a sun
valid entry point whose manifest file is absent and a sun invalid entry
point whose manifest is present; release "B" has a present sun valid
entry point. -/
def releaseA : ConformanceTestRelease :=
  ⟨"A", "urlA", "fileA.zip", some ["v.xml"], some ["i.xml"], none, none, none⟩

def releaseB : ConformanceTestRelease :=
  ⟨"B", "urlB", "fileB.zip", some ["v.xml"], none, none, none, none⟩

/-- World for the propagation fixture: A/v.xml is absent; A/i.xml and
B/v.xml are present manifests whose single case would mismatch (expected
not-well-formed, reader reaches end). -/
def worldPropagation : World :=
  ⟨fun p =>
    if p = ["A", "i.xml"] then some (.sunManifest [sampleCase "x.xml" .NotWf])
    else if p = ["B", "v.xml"] then some (.sunManifest [sampleCase "y.xml" .NotWf])
    else none,
   fun p => if p = ["A", "x.xml"] ∨ p = ["B", "y.xml"]
            then some ObservedResult.reachedEnd else none⟩

/-- World for the open-failure fixture: the first case's document
d/m1.xml is absent, the second case's document d/m2.xml is present and
would mismatch. -/
def worldOpenFailure : World :=
  ⟨fun _ => none,
   fun p => if p = ["d", "m2.xml"] then some ObservedResult.reachedEnd else none⟩

/-- An empty top-level profile element: no `TEST` and no nested
`TESTCASES` children. -/
def xEmptyProfile : ManifestXml := .node (some "E") none [] []

/-- A leaf top-level profile element: `TEST` children but no nested
`TESTCASES` children. -/
def xLeafProfile : ManifestXml := .node (some "L") none [sampleCase "z.xml" .Valid] []

/-- An aggregator profile element: one nested node, no direct tests. -/
def xAggregatorProfile : ManifestXml :=
  .node (some "G") none [] [.node (some "G2") none [sampleCase "w.xml" .Valid] []]

/-- The value `xDepthThree` deserializes to: the depth-three node and its
case are gone. -/
def tDepthThree : TestCasesTier1 :=
  ⟨"L1", none, none, [⟨"L2", none, [sampleCase "c2.xml" .Valid]⟩]⟩

/-- A pull stream whose third pull is `Event::Eof`, everything before
being ordinary events. -/
def sampleStream : Nat → ReadResult :=
  fun i => if i = 2 then .ok .eof else .ok .other

/-- Helper: when every document of a batch opens, the runner opens each
case's path in order, prints exactly the per-case mismatch lines, and
returns `Ok(())`. -/
theorem run_test_case_node_ok (world : World) (dir : FsPath) :
    ∀ tcs : List TestCase,
    (∀ tc ∈ tcs, (world.docs (pathJoin dir tc.uri)).isSome = true) →
    run_test_case_node world tcs dir =
      ⟨tcs.map (fun tc => pathJoin dir tc.uri),
       tcs.flatMap (fun tc =>
         ((world.docs (pathJoin dir tc.uri)).bind (mismatchFor tc)).toList),
       none⟩ := by
  intro tcs
  induction tcs with
  | nil => intro _; simp [run_test_case_node]
  | cons tc rest ih =>
    intro h
    obtain ⟨obs, hobs⟩ := Option.isSome_iff_exists.mp (h tc (by simp))
    have hrest := ih (fun tc' htc' => h tc' (by simp [htc']))
    simp [run_test_case_node, hobs, hrest]

/-- Helper: sequencing after a failed step returns the failed step. -/
theorem rrSeq_err (a b : RunResult) (e : String) (h : a.error = some e) :
    rrSeq a b = a := by
  simp [rrSeq, h]

/-- Helper: sequencing after a successful step concatenates outputs. -/
theorem rrSeq_ok (a b : RunResult) (h : a.error = none) :
    rrSeq a b = ⟨a.opened ++ b.opened, a.printed ++ b.printed, b.error⟩ := by
  simp [rrSeq, h]

/-- Helper: when every document of every tier-2 node opens, the ibm loop
body opens the concatenation of the nodes' case paths in document order,
prints the concatenated mismatch lines, and returns `Ok(())`. -/
theorem runTier2List_ok (world : World) (dir : FsPath) :
    ∀ ns : List TestCasesTier2,
    (∀ tc ∈ ns.flatMap (fun n => n.tests), (world.docs (pathJoin dir tc.uri)).isSome = true) →
    runTier2List world ns dir =
      ⟨(ns.flatMap (fun n => n.tests)).map (fun tc => pathJoin dir tc.uri),
       (ns.flatMap (fun n => n.tests)).flatMap (fun tc =>
         ((world.docs (pathJoin dir tc.uri)).bind (mismatchFor tc)).toList),
       none⟩ := by
  intro ns
  induction ns with
  | nil => intro _; simp [runTier2List]
  | cons n rest ih =>
    intro h
    have hn := run_test_case_node_ok world dir n.tests
      (fun tc htc => h tc (by rw [List.flatMap_cons]; exact List.mem_append_left _ htc))
    have hrest := ih (fun tc htc => h tc
      (by rw [List.flatMap_cons]; exact List.mem_append_right _ htc))
    rw [runTier2List, hn, rrSeq_ok _ _ (by rfl), hrest]
    simp [List.flatMap_cons]

/-- Helper: a successful tier-2 deserialization keeps exactly the
element's direct `TEST` children. -/
theorem deserTier2_tests (c : ManifestXml) (n : TestCasesTier2)
    (h : deserTier2 c = .ok n) : n.tests = xmlTests c := by
  obtain ⟨profile, base, tests, children⟩ := c
  cases profile with
  | none => simp [deserTier2] at h
  | some p =>
    cases tests with
    | nil => simp [deserTier2] at h
    | cons t ts =>
      simp [deserTier2] at h
      simp [← h, xmlTests]

/-- Helper: a successful `deserTier2List` over the nested elements keeps
exactly their direct `TEST` children, in order; anything nested deeper is
dropped. -/
theorem deserTier2List_tests :
    ∀ (cs : List ManifestXml) (ns : List TestCasesTier2),
    deserTier2List cs = .ok ns →
    ns.flatMap (fun n => n.tests) = cs.flatMap xmlTests := by
  intro cs
  induction cs with
  | nil =>
    intro ns h
    simp [deserTier2List] at h
    subst h
    simp
  | cons c rest ih =>
    intro ns h
    rw [deserTier2List] at h
    cases hc : deserTier2 c with
    | error e => rw [hc] at h; exact absurd h (by simp)
    | ok n =>
      rw [hc] at h
      cases hrest : deserTier2List rest with
      | error e => rw [hrest] at h; exact absurd h (by simp)
      | ok ns' =>
        rw [hrest] at h
        simp at h
        subst h
        simp [List.flatMap_cons, deserTier2_tests c n hc, ih ns' hrest]

/-- Helper: a successful `deserTier2List` over a nonempty children list
yields a nonempty result. -/
theorem deserTier2List_cons_ok (c : ManifestXml) (cs : List ManifestXml)
    (ns : List TestCasesTier2) (h : deserTier2List (c :: cs) = .ok ns) : ns ≠ [] := by
  rw [deserTier2List] at h
  cases hc : deserTier2 c with
  | error e => rw [hc] at h; exact absurd h (by simp)
  | ok n =>
    rw [hc] at h
    cases hrest : deserTier2List cs with
    | error e => rw [hrest] at h; exact absurd h (by simp)
    | ok ns' =>
      rw [hrest] at h
      simp at h
      subst h
      simp

/-- Helper: opening the manifest file succeeds when the file is present
and the joined path is nonempty, yielding its parent directory and its
content. -/
theorem setup_config_ok (world : World) (root sub : FsPath) (content : FileContent)
    (h : world.files (root ++ sub) = some content) (hne : root ++ sub ≠ []) :
    setup_config_file_buf_reader world root sub = .ok ((root ++ sub).dropLast, content) := by
  cases hc : root ++ sub with
  | nil => exact absurd hc hne
  | cons a l =>
    rw [hc] at h
    simp only [setup_config_file_buf_reader, hc, h]

/-- Helper: a release without entry points makes `processRelease` a
no-op. -/
theorem processRelease_no_entries (world : World) (root : FsPath)
    (r : ConformanceTestRelease) (h : hasAnyEntryPoint r = false) :
    processRelease world root r = ⟨[], [], none⟩ := by
  have h1 : r.sun_valid_tests_conf = none := by
    cases hx : r.sun_valid_tests_conf with
    | none => rfl
    | some v => rw [hasAnyEntryPoint, hx] at h; simp at h
  have h2 : r.sun_invalid_tests_conf = none := by
    cases hx : r.sun_invalid_tests_conf with
    | none => rfl
    | some v => rw [hasAnyEntryPoint, hx] at h; simp at h
  have h3 : r.sun_non_wf_tests_conf = none := by
    cases hx : r.sun_non_wf_tests_conf with
    | none => rfl
    | some v => rw [hasAnyEntryPoint, hx] at h; simp at h
  have h4 : r.sun_error_tests_conf = none := by
    cases hx : r.sun_error_tests_conf with
    | none => rfl
    | some v => rw [hasAnyEntryPoint, hx] at h; simp at h
  have h5 : r.ibm_valid_tests_conf = none := by
    cases hx : r.ibm_valid_tests_conf with
    | none => rfl
    | some v => rw [hasAnyEntryPoint, hx] at h; simp at h
  simp [processRelease, h1, h2, h3, h4, h5, runOptSun, runOptIbm, rrSeq]

/-- Helper: a terminal pull result always has an observed outcome. -/
theorem observeTerminal_of_isTerminal (t : ReadResult) (h : isTerminal t = true) :
    ∃ o, observeTerminal t = some o := by
  cases t with
  | err d => exact ⟨.failedWithError d, rfl⟩
  | ok e =>
    cases e with
    | eof => exact ⟨.reachedEnd, rfl⟩
    | other => simp [isTerminal] at h

/-- Helper: the loop stops at a terminal pull, for any remaining fuel. -/
theorem readLoopFrom_hit (r : Nat → ReadResult) (i fuel : Nat) (o : ObservedResult)
    (h : observeTerminal (r i) = some o) :
    readLoopFrom r (fuel + 1) i = some o := by
  cases hr : r i with
  | err d => simp [readLoopFrom, hr]; simp [observeTerminal, hr] at h; simpa using h
  | ok e =>
    cases e with
    | eof => simp [readLoopFrom, hr]; simp [observeTerminal, hr] at h; simpa using h
    | other => simp [observeTerminal, hr] at h

/-- Helper: a non-terminal pull is discarded and the loop continues. -/
theorem readLoopFrom_skip (r : Nat → ReadResult) (i fuel : Nat)
    (h : isTerminal (r i) = false) :
    readLoopFrom r (fuel + 1) i = readLoopFrom r fuel (i + 1) := by
  cases hr : r i with
  | err d => simp [isTerminal, hr] at h
  | ok e =>
    cases e with
    | eof => simp [isTerminal, hr] at h
    | other => simp [readLoopFrom, hr]

/-- Helper: if the stream has a terminal pull at offset `n` from the
start index `i`, the loop started at `i` ends at the first terminal pull
at or after `i`, with its observed outcome, once the fuel exceeds the
distance. -/
theorem readLoopFrom_first_terminal :
    ∀ (n : Nat) (r : Nat → ReadResult) (i : Nat),
    isTerminal (r (i + n)) = true →
    ∃ k o, i ≤ k ∧ k ≤ i + n ∧ observeTerminal (r k) = some o ∧
      (∀ j, i ≤ j → j < k → isTerminal (r j) = false) ∧
      ∀ fuel, k - i < fuel → readLoopFrom r fuel i = some o := by
  intro n
  induction n with
  | zero =>
    intro r i h
    obtain ⟨o, ho⟩ := observeTerminal_of_isTerminal _ h
    refine ⟨i, o, le_refl i, by omega, ho, by omega, ?_⟩
    intro fuel hf
    cases fuel with
    | zero => omega
    | succ f => exact readLoopFrom_hit r i f o ho
  | succ m ih =>
    intro r i h
    cases ht : isTerminal (r i) with
    | true =>
      obtain ⟨o, ho⟩ := observeTerminal_of_isTerminal _ ht
      refine ⟨i, o, le_refl i, by omega, ho, by omega, ?_⟩
      intro fuel hf
      cases fuel with
      | zero => omega
      | succ f => exact readLoopFrom_hit r i f o ho
    | false =>
      have hshift : isTerminal (r ((i + 1) + m)) = true := by
        have : (i + 1) + m = i + (m + 1) := by omega
        rw [this]; exact h
      obtain ⟨k, o, hk1, hk2, ho, hbefore, hfuel⟩ := ih r (i + 1) hshift
      refine ⟨k, o, by omega, by omega, ho, ?_, ?_⟩
      · intro j hij hjk
        rcases Nat.eq_or_lt_of_le hij with hji | hji
        · exact hji ▸ ht
        · exact hbefore j (by omega) hjk
      · intro fuel hf
        cases fuel with
        | zero => omega
        | succ f =>
          rw [readLoopFrom_skip r i f ht]
          exact hfuel f (by omega)

/-- Claim C1: for every test case executed by the runner, the
match/mismatch classification follows the four-by-two decision table —
expected `Valid` or `Invalid` matches exactly when the reader reaches
end-of-document without error, expected `NotWellFormed` or `Error`
matches exactly when the reader errors, and exactly one mismatch
diagnostic is printed in the mismatching cells, none in the matching
ones. -/
theorem classification_follows_decision_table :
    ∀ (world : World) (dir : FsPath) (tc : TestCase) (obs : ObservedResult),
    world.docs (pathJoin dir tc.uri) = some obs →
    (run_test_case_node world [tc] dir).printed.length =
      (if expectedMatches tc.expected_outcome obs = true then 0 else 1) := by
  intro world dir tc obs h
  simp only [run_test_case_node, h]
  cases obs <;> cases hty : tc.expected_outcome <;>
    simp [mismatchFor, expectedMatches, hty]

/-- Witness for C1: a not-well-formed expectation whose reader reaches
the end yields exactly one diagnostic. -/
theorem classification_follows_decision_table_witness :
    (run_test_case_node (oneDocWorld (["w", "c1.xml"]) ObservedResult.reachedEnd)
        [sampleCase "c1.xml" .NotWf] (["w"])).printed.length =
      (if expectedMatches (sampleCase "c1.xml" .NotWf).expected_outcome
            ObservedResult.reachedEnd = true then 0 else 1) :=
  classification_follows_decision_table
    (oneDocWorld (["w", "c1.xml"]) ObservedResult.reachedEnd)
    (["w"]) (sampleCase "c1.xml" .NotWf) ObservedResult.reachedEnd (by rfl)

/-- Counterexample to claim C2 as stated: on a manifest whose nested node
carries the base-path override "sub", the code opens the document at the
manifest directory joined with the URI, not at the effective base of the
enclosing node joined with the URI as the claim requires — the override
is ignored. -/
theorem base_override_ignored_cex :
    deserTier1 xBaseOverride = .ok tBaseOverride ∧
    (run_ibm_tests_for worldBaseOverride (["ibm", "conf.xml"]) (["root"])).opened
      = [["root", "ibm", "doc.xml"]] ∧
    specResolvedPaths (["root", "ibm"]) tBaseOverride
      = [["root", "ibm", "sub", "doc.xml"]] ∧
    (["root", "ibm", "doc.xml"] : FsPath) ≠ ["root", "ibm", "sub", "doc.xml"] :=
  ⟨rfl, rfl, rfl, by decide⟩

/-- Claim C2 (amended): for every manifest tree and every test case in
it, the document path passed to the reader equals the manifest file's
containing directory joined with the case's relative URI; the
`xml:base` overrides of the enclosing nodes are deserialized but never
consulted. -/
theorem resolved_paths_ignore_base_overrides :
    ∀ (world : World) (dir : FsPath) (ns : List TestCasesTier2),
    (∀ tc ∈ ns.flatMap (fun n => n.tests), (world.docs (pathJoin dir tc.uri)).isSome = true) →
    (runTier2List world ns dir).opened =
      (ns.flatMap (fun n => n.tests)).map (fun tc => pathJoin dir tc.uri) := by
  intro world dir ns h
  rw [runTier2List_ok world dir ns h]

/-- Witness for amended C2: the base-override fixture resolves against
the manifest directory. -/
theorem resolved_paths_ignore_base_overrides_witness :
    (runTier2List worldBaseOverride tBaseOverride.tier_2 (["root", "ibm"])).opened =
      (tBaseOverride.tier_2.flatMap (fun n => n.tests)).map
        (fun tc => pathJoin (["root", "ibm"]) tc.uri) :=
  resolved_paths_ignore_base_overrides worldBaseOverride (["root", "ibm"])
    tBaseOverride.tier_2 (by decide)

/-- Counterexample to claim C3 as stated: the root node's direct test
case "a.xml" is a leaf test case of the manifest tree, yet the runner
never opens its document (only the nested node's "b.xml" is run), and it
would have produced a mismatch diagnostic had it been run. -/
theorem root_direct_cases_skipped_cex :
    sampleCase "a.xml" .NotWf ∈ allCasesXml xRootDirect ∧
    deserTier1 xRootDirect = .ok tRootDirect ∧
    run_ibm_tests_for worldRootDirect (["ibm", "conf.xml"]) (["root"])
      = ⟨[["root", "ibm", "b.xml"]], [], none⟩ ∧
    pathJoin (["root", "ibm"]) (sampleCase "a.xml" .NotWf).uri ∉
      ([[ "root", "ibm", "b.xml" ]] : List FsPath) ∧
    mismatchFor (sampleCase "a.xml" .NotWf) ObservedResult.reachedEnd ≠ none :=
  ⟨by decide, rfl, rfl, by decide, by decide⟩

/-- Claim C3 (amended): for every successfully deserialized manifest,
the runner executes exactly the direct test cases of the tier-2 nodes,
each once, in depth-first document order; the root node's direct test
cases are never executed and no deeper recursion exists. -/
theorem ibm_runs_only_tier2_cases_in_order :
    ∀ (world : World) (sub root : FsPath) (x : ManifestXml) (t : TestCasesTier1),
    world.files (root ++ sub) = some (.ibmManifest x) →
    deserTier1 x = .ok t →
    root ++ sub ≠ [] →
    (∀ tc ∈ t.tier_2.flatMap (fun n => n.tests),
      (world.docs (pathJoin ((root ++ sub).dropLast) tc.uri)).isSome = true) →
    run_ibm_tests_for world sub root =
      ⟨(t.tier_2.flatMap (fun n => n.tests)).map
         (fun tc => pathJoin ((root ++ sub).dropLast) tc.uri),
       (t.tier_2.flatMap (fun n => n.tests)).flatMap (fun tc =>
         ((world.docs (pathJoin ((root ++ sub).dropLast) tc.uri)).bind
           (mismatchFor tc)).toList),
       none⟩ := by
  intro world sub root x t hf hd hne h
  have hs := setup_config_ok world root sub (.ibmManifest x) hf hne
  simp only [run_ibm_tests_for, hs, ibm_from_reader, hd]
  exact runTier2List_ok world ((root ++ sub).dropLast) t.tier_2 h

/-- Witness for amended C3: the root-direct fixture runs exactly its
tier-2 case. -/
theorem ibm_runs_only_tier2_cases_in_order_witness :
    run_ibm_tests_for worldRootDirect (["ibm", "conf.xml"]) (["root"]) =
      ⟨(tRootDirect.tier_2.flatMap (fun n => n.tests)).map
         (fun tc => pathJoin (((["root"] : FsPath) ++ ["ibm", "conf.xml"]).dropLast) tc.uri),
       (tRootDirect.tier_2.flatMap (fun n => n.tests)).flatMap (fun tc =>
         ((worldRootDirect.docs
             (pathJoin (((["root"] : FsPath) ++ ["ibm", "conf.xml"]).dropLast) tc.uri)).bind
           (mismatchFor tc)).toList),
       none⟩ :=
  ibm_runs_only_tier2_cases_in_order worldRootDirect (["ibm", "conf.xml"]) (["root"])
    xRootDirect tRootDirect (by rfl) (by rfl) (by decide) (by decide)

/-- Counterexample to claim C4 as stated: a manifest nested three levels
deep deserializes, but its depth-three test case "c3.xml" is dropped —
its document is never opened, so not every test case resolves
correctly. -/
theorem depth_three_case_dropped_cex :
    (deserTier1 xDepthThree).isOk = true ∧
    sampleCase "c3.xml" .NotWf ∈ allCasesXml xDepthThree ∧
    (run_ibm_tests_for worldDepthThree (["ibm", "conf.xml"]) (["root"])).opened
      = [["root", "ibm", "c2.xml"]] ∧
    pathJoin (["root", "ibm"]) (sampleCase "c3.xml" .NotWf).uri ∉
      ([[ "root", "ibm", "c2.xml" ]] : List FsPath) :=
  ⟨rfl, by decide, rfl, by decide⟩

/-- Claim C4 (amended): the manifest model is fixed at two levels — a
successfully deserialized manifest's tier-2 test cases are exactly the
direct `TEST` children of the depth-two elements, whatever is nested
deeper being ignored, so test cases below depth two are never
resolved. -/
theorem deser_keeps_exactly_depth_two_cases :
    ∀ (x : ManifestXml) (t : TestCasesTier1),
    deserTier1 x = .ok t →
    t.tier_2.flatMap (fun n => n.tests) = (xmlChildren x).flatMap xmlTests := by
  intro x t h
  obtain ⟨profile, base, tests, children⟩ := x
  cases profile with
  | none => simp [deserTier1] at h
  | some p =>
    simp only [deserTier1] at h
    cases hm : deserTier2List children with
    | error e => rw [hm] at h; exact absurd h (by simp)
    | ok tier2s =>
      rw [hm] at h
      cases tier2s with
      | nil => exact absurd h (by simp)
      | cons n ns =>
        simp at h
        have := deserTier2List_tests children (n :: ns) hm
        rw [← h, xmlChildren]
        exact this

/-- Witness for amended C4: the depth-three fixture keeps only the
depth-two case. -/
theorem deser_keeps_exactly_depth_two_cases_witness :
    tDepthThree.tier_2.flatMap (fun n => n.tests) =
      (xmlChildren xDepthThree).flatMap xmlTests :=
  deser_keeps_exactly_depth_two_cases xDepthThree tDepthThree (by rfl)

/-- Counterexample to claim C5 as stated: release A's first entry-point
manifest is absent, and the whole run returns that error with nothing
opened and nothing printed — although release A's second entry point and
release B's entry point both have manifests present on disk, they are
never processed and the run terminates. -/
theorem entry_point_error_halts_run_cex :
    mainRun worldPropagation (fun r => [r.release_date]) [releaseA, releaseB]
      = ⟨[], [], some ("io error: A/v.xml")⟩ ∧
    (worldPropagation.files (["A", "i.xml"])).isSome = true ∧
    (worldPropagation.files (["B", "v.xml"])).isSome = true :=
  ⟨rfl, rfl, rfl⟩

/-- Claim C5 (amended): a fatal error while processing one manifest entry
point aborts the entire run — `main` propagates the error, so the whole
run for the first failing release is returned unchanged and the remaining
selected releases are never processed. -/
theorem entry_point_error_propagates_to_main :
    ∀ (world : World) (rootOf : ConformanceTestRelease → FsPath)
      (r : ConformanceTestRelease) (rest : List ConformanceTestRelease) (e : String),
    (processRelease world (rootOf r) r).error = some e →
    mainRun world rootOf (r :: rest) = processRelease world (rootOf r) r := by
  intro world rootOf r rest e h
  rw [mainRun]
  exact rrSeq_err _ _ e h

/-- Witness for amended C5: release A's failure makes the two-release run
collapse to release A's failing result. -/
theorem entry_point_error_propagates_to_main_witness :
    mainRun worldPropagation (fun r => [r.release_date]) [releaseA, releaseB] =
      processRelease worldPropagation ((fun r => [r.release_date]) releaseA) releaseA :=
  entry_point_error_propagates_to_main worldPropagation (fun r => [r.release_date])
    releaseA [releaseB] ("io error: A/v.xml") (by rfl)

/-- Counterexample to claim C6 as stated: the first test case's document
cannot be opened, and the runner returns that I/O error immediately —
the second case's document is present and would have produced a mismatch
diagnostic, but it is never opened and nothing is printed, so processing
does not continue with the next test case. -/
theorem doc_open_failure_aborts_batch_cex :
    run_test_case_node worldOpenFailure
        [sampleCase "m1.xml" .Valid, sampleCase "m2.xml" .NotWf] (["d"])
      = ⟨[["d", "m1.xml"]], [], some ("io error: d/m1.xml")⟩ ∧
    (worldOpenFailure.docs (["d", "m2.xml"])).isSome = true ∧
    mismatchFor (sampleCase "m2.xml" .NotWf) ObservedResult.reachedEnd ≠ none :=
  ⟨rfl, rfl, by decide⟩

/-- Claim C6 (amended): a failure to open one test case's document file
makes the runner return the I/O error at once — it is reported as an
error return, distinct from mismatch output, and the remaining test cases
of the manifest are not processed. -/
theorem doc_open_failure_returns_error :
    ∀ (world : World) (dir : FsPath) (tc : TestCase) (rest : List TestCase),
    world.docs (pathJoin dir tc.uri) = none →
    run_test_case_node world (tc :: rest) dir =
      ⟨[pathJoin dir tc.uri], [],
       some ("io error: " ++ pathToString (pathJoin dir tc.uri))⟩ := by
  intro world dir tc rest h
  simp [run_test_case_node, h]

/-- Witness for amended C6: the open-failure fixture aborts on its first
case. -/
theorem doc_open_failure_returns_error_witness :
    run_test_case_node worldOpenFailure
        (sampleCase "m1.xml" .Valid :: [sampleCase "m2.xml" .NotWf]) (["d"]) =
      ⟨[pathJoin (["d"]) (sampleCase "m1.xml" .Valid).uri], [],
       some ("io error: " ++ pathToString (pathJoin (["d"]) (sampleCase "m1.xml" .Valid).uri))⟩ :=
  doc_open_failure_returns_error worldOpenFailure (["d"]) (sampleCase "m1.xml" .Valid)
    [sampleCase "m2.xml" .NotWf] (by rfl)

/-- Counterexample to claim C7 as stated: a top-level profile element
with neither tests nor nested nodes fails deserialization with a
missing-field error instead of yielding zero test cases, and a leaf
profile (tests but no nested nodes) fails the same way. -/
theorem empty_and_leaf_profile_deser_fail_cex :
    deserTier1 xEmptyProfile = .error ("missing field TESTCASES") ∧
    deserTier1 xLeafProfile = .error ("missing field TESTCASES") :=
  ⟨rfl, rfl⟩

/-- Claim C7 (amended): deserialization succeeds for an aggregator
profile (nested nodes, no direct tests — the direct-test list is
optional) and for a tier-2 node with tests; but a top-level node with no
nested `TESTCASES` children — whether or not it has direct tests — fails
with a missing-field error, because the nested-node list is a required
field. -/
theorem deser_tier1_requires_nested_nodes :
    ∀ (p : String) (b : Option String) (ts : List TestCase)
      (c : ManifestXml) (cs : List ManifestXml) (t0 : TestCase) (ts2 : List TestCase),
    deserTier1 (.node (some p) b ts []) = .error ("missing field TESTCASES") ∧
    ((deserTier2List (c :: cs)).isOk = true →
      (deserTier1 (.node (some p) b [] (c :: cs))).isOk = true) ∧
    (deserTier2 (.node (some p) b (t0 :: ts2) cs)).isOk = true := by
  intro p b ts c cs t0 ts2
  refine ⟨?_, ?_, ?_⟩
  · cases ts <;> simp [deserTier1, deserTier2List]
  · intro h
    cases hm : deserTier2List (c :: cs) with
    | error e => rw [hm] at h; simp [Except.isOk, Except.toBool] at h
    | ok ns =>
      cases hns : ns with
      | nil =>
        rw [hns] at hm
        exact absurd rfl (deserTier2List_cons_ok c cs [] hm)
      | cons n ns' =>
        rw [hns] at hm
        simp [deserTier1, hm, Except.isOk, Except.toBool]
  · simp [deserTier2, Except.isOk, Except.toBool]

/-- Witness for amended C7: the leaf profile fails, the aggregator
profile succeeds, and its inner tier-2 node deserializes. -/
theorem deser_tier1_requires_nested_nodes_witness :
    deserTier1 (.node (some "G") none [sampleCase "z.xml" .Valid] [])
      = .error ("missing field TESTCASES") ∧
    (deserTier1 (.node (some "G") none []
      [ManifestXml.node (some "G2") none [sampleCase "w.xml" .Valid] []])).isOk = true ∧
    (deserTier2 (.node (some "G") none
      (sampleCase "w.xml" .Valid :: []) [])).isOk = true := by
  have h := deser_tier1_requires_nested_nodes "G" none [sampleCase "z.xml" .Valid]
    (ManifestXml.node (some "G2") none [sampleCase "w.xml" .Valid] []) []
    (sampleCase "w.xml" .Valid) []
  exact ⟨h.1, h.2.1 (by rfl), h.2.2⟩

/-- Claim C8: a test-outcome mismatch is never a process error — when
every document of the batch opens, the runner returns `Ok(())` and prints
per test case exactly the optional mismatch line (one diagnostic on
mismatch, no output on match), continuing through the whole batch. -/
theorem mismatch_is_not_process_error :
    ∀ (world : World) (dir : FsPath) (tcs : List TestCase),
    (∀ tc ∈ tcs, (world.docs (pathJoin dir tc.uri)).isSome = true) →
    (run_test_case_node world tcs dir).error = none ∧
    (run_test_case_node world tcs dir).printed =
      tcs.flatMap (fun tc =>
        ((world.docs (pathJoin dir tc.uri)).bind (mismatchFor tc)).toList) := by
  intro world dir tcs h
  rw [run_test_case_node_ok world dir tcs h]
  exact ⟨rfl, rfl⟩

/-- Witness for C8: a one-case batch whose case mismatches still returns
success and prints one line. -/
theorem mismatch_is_not_process_error_witness :
    (run_test_case_node worldOpenFailure [sampleCase "m2.xml" .NotWf] (["d"])).error = none ∧
    (run_test_case_node worldOpenFailure [sampleCase "m2.xml" .NotWf] (["d"])).printed =
      [sampleCase "m2.xml" .NotWf].flatMap (fun tc =>
        ((worldOpenFailure.docs (pathJoin (["d"]) tc.uri)).bind (mismatchFor tc)).toList) :=
  mismatch_is_not_process_error worldOpenFailure (["d"])
    [sampleCase "m2.xml" .NotWf] (by decide)

/-- Claim C9: of the four compiled-in releases, only the 2003-12-10 one
has any manifest entry points; every other release has all entry-point
fields `None`, and selecting such a release processes no entry point at
all — `processRelease` opens nothing, prints nothing and returns no
error. -/
theorem only_2003_release_has_entry_points :
    (RELEASES.filter hasAnyEntryPoint).map (fun r => r.release_date) = ["2003-12-10"] ∧
    (∀ r ∈ RELEASES, r.release_date ≠ "2003-12-10" → hasAnyEntryPoint r = false) ∧
    ∀ r ∈ RELEASES, hasAnyEntryPoint r = false →
      ∀ (world : World) (root : FsPath), processRelease world root r = ⟨[], [], none⟩ := by
  refine ⟨by rfl, by decide, ?_⟩
  intro r _ h world root
  exact processRelease_no_entries world root r h

/-- Witness for C9: the second release (2008-02-05) runs no tests in any
world. -/
theorem only_2003_release_has_entry_points_witness :
    processRelease trivialWorld [] (RELEASES.get ⟨1, by decide⟩) = ⟨[], [], none⟩ :=
  only_2003_release_has_entry_points.2.2 (RELEASES.get ⟨1, by decide⟩)
    (by decide) (by rfl) trivialWorld []

/-- Claim C10: the runner's event loop terminates for every test case
whose pull stream yields an error or end-of-document after finitely many
events — the loop stops at the first terminal pull, every earlier
(non-terminal) event being discarded without affecting the outcome. -/
theorem event_loop_terminates_at_first_terminal :
    ∀ (r : Nat → ReadResult) (n : Nat),
    isTerminal (r n) = true →
    ∃ k o, k ≤ n ∧ observeTerminal (r k) = some o ∧
      (∀ j, j < k → isTerminal (r j) = false) ∧
      ∀ fuel, k < fuel → readLoopFrom r fuel 0 = some o := by
  intro r n h
  obtain ⟨k, o, _, hk2, ho, hb, hf⟩ :=
    readLoopFrom_first_terminal n r 0 (by simpa using h)
  exact ⟨k, o, by omega, ho, fun j hj => hb j (by omega) hj,
         fun fuel hfu => hf fuel (by omega)⟩

/-- Witness for C10: a stream with `Event::Eof` at index two. -/
theorem event_loop_terminates_at_first_terminal_witness :
    ∃ k o, k ≤ 2 ∧ observeTerminal (sampleStream k) = some o ∧
      (∀ j, j < k → isTerminal (sampleStream j) = false) ∧
      ∀ fuel, k < fuel → readLoopFrom sampleStream fuel 0 = some o :=
  event_loop_terminates_at_first_terminal sampleStream 2 (by rfl)
